import Mathlib

/-!
Verification of the valibot-to-JSON-Schema converter specification.

The converter walks an in-memory validation-schema graph and produces a
JSON Schema document.  The converter proper is modelled here from the
specification (spec.md) and from the expectations recorded in the test
suite (src/src/toJSONSchema.spec.ts); schema-node identity is modelled by
a numeric id attached to every node, mirroring JavaScript reference
identity, and the definition-name map is keyed by that id.
-/

namespace VJS

/-- JSON values, used both for JSON Schema fragments and for documents. -/
inductive JVal : Type where
  | null : JVal
  | bool : Bool → JVal
  | num : Int → JVal
  | str : String → JVal
  | arr : List JVal → JVal
  | obj : List (String × JVal) → JVal

mutual

/-- Structural equality of JSON values (models lodash isEqual, which the
tuple converter uses to compare converted fragments). -/
def jbeq : JVal → JVal → Bool
  | .null, .null => true
  | .bool a, .bool b => a == b
  | .num a, .num b => a == b
  | .str a, .str b => a == b
  | .arr a, .arr b => jbeqList a b
  | .obj a, .obj b => jbeqKVs a b
  | _, _ => false

/-- Structural equality on lists of JSON values. -/
def jbeqList : List JVal → List JVal → Bool
  | [], [] => true
  | a :: as, b :: bs => jbeq a b && jbeqList as bs
  | _, _ => false

/-- Structural equality on ordered key-value lists. -/
def jbeqKVs : List (String × JVal) → List (String × JVal) → Bool
  | [], [] => true
  | (k, a) :: as, (k2, b) :: bs => k == k2 && jbeq a b && jbeqKVs as bs
  | _, _ => false

end

/-- Look a key up in a JSON object fragment (first occurrence). -/
def jGet (k : String) : JVal → Option JVal
  | .obj kvs => (kvs.find? (fun p => p.1 == k)).map (fun p => p.2)
  | _ => none

/-- The key-value list of an object fragment (conversion always produces
object fragments, so the fallback is never reached on converter output). -/
def jkvs : JVal → List (String × JVal)
  | .obj kvs => kvs
  | _ => []

/-- Shallow merge of a JSON Schema keyword fragment into a converted
object fragment, mirroring JavaScript object spread: keys of the base keep
their position but take the value from the attached fragment on
collision, and keys only in the attached fragment are appended in order. -/
def mergeKVs (base frag : List (String × JVal)) : List (String × JVal) :=
  (base.map (fun kv =>
    match frag.find? (fun p => p.1 == kv.1) with
    | some p => (kv.1, p.2)
    | none => kv))
  ++ frag.filter (fun p => base.all (fun kv => ¬ (kv.1 == p.1)))

/-- Shallow merge on a fragment value (non-objects are left unchanged). -/
def mergeObj (f : JVal) (frag : List (String × JVal)) : JVal :=
  match f with
  | .obj kvs => .obj (mergeKVs kvs frag)
  | other => other

/-- Literal values a `literal` schema may carry (JS primitives). -/
inductive Lit : Type where
  | str : String → Lit
  | int : Int → Lit
  | bool : Bool → Lit
  | nanLit : Lit
  | symbol : Lit
  deriving DecidableEq

/-- Date encoding strategy (types.ts, `DateStrategy`). -/
inductive DateStrategy : Type where
  | string : DateStrategy
  | integer : DateStrategy
  deriving DecidableEq

/-- BigInt encoding strategy (types.ts, `BigIntStrategy`). -/
inductive BigIntStrategy : Type where
  | string : BigIntStrategy
  | integer : BigIntStrategy
  deriving DecidableEq

/-- Schema-node variants.  Children are pairs of a numeric identity and a
variant; a `recursive` node holds only the identity its deferred accessor
resolves to, never an embedded target.  The Bool on `objectS` is the
per-schema strict marker. -/
inductive VS : Type where
  | anyS : VS
  | nullS : VS
  | literal : Lit → VS
  | number : VS
  | stringS : VS
  | boolean : VS
  | nanS : VS
  | nullable : Nat × VS → VS
  | optionalS : Nat × VS → VS
  | objectS : List (String × Nat × VS) → Bool → VS
  | record : Nat × VS → VS
  | arrayS : Nat × VS → VS
  | tuple : List (Nat × VS) → Option (Nat × VS) → VS
  | picklist : List String → VS
  | union : List (Nat × VS) → VS
  | intersect : List (Nat × VS) → VS
  | recursive : Nat → VS
  | date : VS
  | bigint : VS
  | undef : VS
  | withFeatures : Nat × VS → List (String × JVal) → VS

/-- A schema node: identity paired with its variant. -/
abbrev Node := Nat × VS

/-- The kind tag of a schema node, as used in error messages. -/
def kindName : VS → String
  | .anyS => "any"
  | .nullS => "null"
  | .literal _ => "literal"
  | .number => "number"
  | .stringS => "string"
  | .boolean => "boolean"
  | .nanS => "nan"
  | .nullable _ => "nullable"
  | .optionalS _ => "optional"
  | .objectS _ _ => "object"
  | .record _ => "record"
  | .arrayS _ => "array"
  | .tuple _ _ => "tuple"
  | .picklist _ => "picklist"
  | .union _ => "union"
  | .intersect _ => "intersect"
  | .recursive _ => "recursive"
  | .date => "date"
  | .bigint => "bigint"
  | .undef => "undefined"
  | .withFeatures _ _ => "withFeatures"

/-- Is the variant an optional wrapper (decides membership in `required`). -/
def isOptionalVS : VS → Bool
  | .optionalS _ => true
  | _ => false

/-- Conversion errors (section 7 of the spec; messages follow the test
suite where it pins them). -/
inductive ConvErr : Type where
  | configuration : String → ConvErr
  | unsupportedKind : String → ConvErr
  | unsupportedLiteral : String → ConvErr
  | missingDefinition : String → ConvErr
  deriving DecidableEq

/-- The message carried by an error. -/
def ConvErr.message : ConvErr → String
  | .configuration m => m
  | .unsupportedKind m => m
  | .unsupportedLiteral m => m
  | .missingDefinition m => m

/-- Conversion context: resolved options plus the definition-name map
(types.ts, `Context` and `DefinitionNameMap`).  The map is keyed by node
identity. -/
structure Ctx : Type where
  strictObjectTypes : Bool
  dateStrategy : DateStrategy
  bigintStrategy : BigIntStrategy
  ignoreUnknownValidation : Bool
  defNameMap : List (Nat × String)

/-- Look up the definition name assigned to a node identity. -/
def lookupName (ctx : Ctx) (id : Nat) : Option String :=
  (ctx.defNameMap.find? (fun p => p.1 == id)).map (fun p => p.2)

/-- The `$ref` fragment pointing at a named definition. -/
def refFrag (name : String) : JVal :=
  .obj [("$ref", .str ("#/definitions/" ++ name))]

/-- The value of the `$schema` keyword (utils/json-schema is not part of
the sources; the draft-07 URI is the conventional value). -/
def schemaURI : String := "http://json-schema.org/draft-07/schema#"

/-- Produce a reference fragment for a found name, or fall back. -/
def refOrElse (o : Option String) (fallback : Except ConvErr JVal) :
    Except ConvErr JVal :=
  match o with
  | some name => .ok (refFrag name)
  | none => fallback

/-- The date fragment for each date strategy (section 4.4). -/
def dateOut : DateStrategy → JVal
  | .string => .obj [("type", .str ("string")), ("format", .str ("date-time"))]
  | .integer => .obj [("type", .str ("integer")), ("format", .str ("unix-time"))]

/-- The bigint fragment for each bigint strategy (section 4.4). -/
def bigintOut : BigIntStrategy → JVal
  | .string => .obj [("type", .str ("string"))]
  | .integer => .obj [("type", .str ("integer")), ("format", .str ("int64"))]

/-- The literal fragment, or the unsupported-literal error for a symbol
or NaN value (section 4.4, messages pinned by the test suite). -/
def literalOut : Lit → Except ConvErr JVal
  | .str s => .ok (.obj [("const", .str s)])
  | .int n => .ok (.obj [("const", .num n)])
  | .bool b => .ok (.obj [("const", .bool b)])
  | .nanLit => .error (.unsupportedLiteral ("Unsupported literal value type: NaN"))
  | .symbol => .error (.unsupportedLiteral ("Unsupported literal value type: Symbol()"))

/-- Assemble an object fragment from converted properties, the required
key list and the resolved strictness: the required keyword is omitted when
no key is required (pinned by the empty-object test), and strictness adds
additionalProperties false (section 4.5). -/
def objectOut (props : List (String × JVal)) (req : List String) (strict : Bool) : JVal :=
  .obj ([("type", .str ("object")), ("properties", .obj props)]
    ++ (if req.isEmpty then [] else [("required", .arr (req.map .str))])
    ++ (if strict then [("additionalProperties", .bool false)] else []))

/-- The required keys of an object schema: declared keys whose value is
not wrapped in optional, in declaration order. -/
def requiredKeys (entries : List (String × Node)) : List String :=
  (entries.filter (fun e => ¬ isOptionalVS e.2.2)).map (fun e => e.1)

/-- Assemble the fragment of a tuple with no rest item (section 4.5). -/
def tupleFixedOut (fs : List JVal) : JVal :=
  .obj [("type", .str ("array")), ("items", .arr fs),
    ("minItems", .num fs.length), ("maxItems", .num fs.length)]

/-- Assemble the fragment of a tuple with a rest item: collapse to the
homogeneous form when the fixed fragments are exactly one fragment
structurally equal to the rest fragment (section 4.5). -/
def tupleRestOut (fs : List JVal) (rf : JVal) : JVal :=
  if jbeqList fs [rf] then
    .obj [("type", .str ("array")), ("items", rf), ("minItems", .num 1)]
  else
    .obj [("type", .str ("array")), ("items", .arr fs),
      ("additionalItems", rf), ("minItems", .num fs.length)]

mutual

/-- Modelled from the spec: the converter entry for one node
(toJSONSchema/index conversion logic, absent from src/).  Per section 4.3
and the recursive-type tests, any node whose identity carries a definition
name converts to a bare `$ref` fragment; only unnamed nodes have their
variant converted. -/
def convNode (ctx : Ctx) : Node → Except ConvErr JVal
  | (id, s) => refOrElse (lookupName ctx id) (convVS ctx s)

/-- Modelled from the spec: the dispatcher over schema-node variants
(sections 4.2 to 4.5 of spec.md, pinned by the test suite). -/
def convVS (ctx : Ctx) : VS → Except ConvErr JVal
  | .anyS => .ok (.obj [])
  | .nullS => .ok (.obj [("const", .null)])
  | .literal l => literalOut l
  | .number => .ok (.obj [("type", .str ("number"))])
  | .stringS => .ok (.obj [("type", .str ("string"))])
  | .boolean => .ok (.obj [("type", .str ("boolean"))])
  | .nanS => .error (.unsupportedKind ("Unsupported valibot schema: nan"))
  | .nullable inner =>
    (convNode ctx inner).bind (fun f =>
      .ok (.obj [("anyOf", .arr [.obj [("const", .null)], f])]))
  | .optionalS inner => convNode ctx inner
  | .objectS entries strictM =>
    (convProps ctx entries).bind (fun props =>
      .ok (objectOut props (requiredKeys entries) (ctx.strictObjectTypes || strictM)))
  | .record value =>
    (convNode ctx value).bind (fun f =>
      .ok (.obj [("type", .str ("object")), ("additionalProperties", f)]))
  | .arrayS item =>
    (convNode ctx item).bind (fun f =>
      .ok (.obj [("type", .str ("array")), ("items", f)]))
  | .tuple items none =>
    (convNodes ctx items).bind (fun fs => .ok (tupleFixedOut fs))
  | .tuple items (some r) =>
    (convNodes ctx items).bind (fun fs =>
      (convNode ctx r).bind (fun rf => .ok (tupleRestOut fs rf)))
  | .picklist values => .ok (.obj [("enum", .arr (values.map .str))])
  | .union members =>
    (convNodes ctx members).bind (fun fs => .ok (.obj [("anyOf", .arr fs)]))
  | .intersect members =>
    (convNodes ctx members).bind (fun fs => .ok (.obj [("allOf", .arr fs)]))
  | .recursive target =>
    refOrElse (lookupName ctx target) (.error (.missingDefinition
      ("Type inside recursive schema must be provided in the definitions")))
  | .date => .ok (dateOut ctx.dateStrategy)
  | .bigint => .ok (bigintOut ctx.bigintStrategy)
  | .undef => .ok (.obj [])
  | .withFeatures inner frag =>
    (convNode ctx inner).bind (fun f => .ok (mergeObj f frag))

/-- Convert a list of child nodes, failing on the first error. -/
def convNodes (ctx : Ctx) : List Node → Except ConvErr (List JVal)
  | [] => .ok []
  | n :: rest =>
    (convNode ctx n).bind (fun f =>
      (convNodes ctx rest).bind (fun fs => .ok (f :: fs)))

/-- Convert the property map of an object schema, in declaration order. -/
def convProps (ctx : Ctx) : List (String × Node) → Except ConvErr (List (String × JVal))
  | [] => .ok []
  | (k, n) :: rest =>
    (convNode ctx n).bind (fun f =>
      (convProps ctx rest).bind (fun fs => .ok ((k, f) :: fs)))

end

/-- Options accepted by the root orchestrator (types.ts,
`ToJSONSchemaOptions`); the defaults mirror undefined option fields. -/
structure Options : Type where
  schema : Option Node := none
  definitions : List (String × Node) := []
  strictObjectTypes : Bool := false
  dateStrategy : DateStrategy := .string
  bigintStrategy : BigIntStrategy := .string
  ignoreUnknownValidation : Bool := false

/-- Modelled from the spec: build the definition-name map by reversing the
supplied name-to-node mapping into an identity-to-name mapping (section 4.1
of spec.md; the orchestrator source is absent from src/). -/
def buildDefNameMap (defs : List (String × Node)) : List (Nat × String) :=
  defs.map (fun d => (d.2.1, d.1))

/-- Build the shared context for one top-level conversion call. -/
def mkCtx (opts : Options) : Ctx :=
  { strictObjectTypes := opts.strictObjectTypes
    dateStrategy := opts.dateStrategy
    bigintStrategy := opts.bigintStrategy
    ignoreUnknownValidation := opts.ignoreUnknownValidation
    defNameMap := buildDefNameMap opts.definitions }

/-- Modelled from the spec: convert every supplied named definition, in
supplied order, into its JSON Schema fragment (section 4.1: all supplied
definitions are converted eagerly).  Each definition body is converted via
the variant dispatcher so that a definition does not degenerate into a
reference to itself. -/
def convDefs (ctx : Ctx) : List (String × Node) → Except ConvErr (List (String × JVal))
  | [] => .ok []
  | (name, n) :: rest =>
    (convVS ctx n.2).bind (fun f =>
      (convDefs ctx rest).bind (fun fs => .ok ((name, f) :: fs)))

/-- Modelled from the spec: the root orchestrator (section 4.1 of spec.md,
document shapes pinned by the definitions tests).  Produces the final
JSON Schema document or the configuration error when neither a main
schema nor definitions are supplied. -/
def toJSONSchema (opts : Options) : Except ConvErr JVal :=
  match opts.schema, opts.definitions with
  | none, [] => .error (.configuration ("No main schema or definitions provided."))
  | _, _ =>
    let ctx := mkCtx opts
    match convDefs ctx opts.definitions with
    | .error e => .error e
    | .ok ds =>
      match opts.schema with
      | some root =>
        match lookupName ctx root.1 with
        | some name =>
          .ok (.obj ([("$schema", .str schemaURI),
            ("$ref", .str ("#/definitions/" ++ name))]
            ++ (if ds.isEmpty then [] else [("definitions", .obj ds)])))
        | none =>
          match convNode ctx root with
          | .error e => .error e
          | .ok f =>
            .ok (.obj (("$schema", .str schemaURI) :: jkvs f
              ++ (if ds.isEmpty then [] else [("definitions", .obj ds)])))
      | none =>
        .ok (.obj [("$schema", .str schemaURI), ("definitions", .obj ds)])

/-- Look a key up in an ordered key-value list (first occurrence). -/
def olookup (l : List (String × JVal)) (k : String) : Option JVal :=
  (l.find? (fun p => p.1 == k)).map (fun p => p.2)

/-- A context with default options and no named definitions. -/
def ctx0 : Ctx :=
  { strictObjectTypes := false, dateStrategy := .string,
    bigintStrategy := .string, ignoreUnknownValidation := false,
    defNameMap := [] }

/-- A context whose definition-name map names identity 5 as list. -/
def ctxList : Ctx :=
  { strictObjectTypes := false, dateStrategy := .string,
    bigintStrategy := .string, ignoreUnknownValidation := false,
    defNameMap := [(5, "list")] }

/-- The listItem schema of the recursive-type test: an object whose
children mix strings with a lazy reference back to the list schema
(identity 0). -/
def itemVS : VS := .objectS
  [("type", (12, .literal (.str ("li")))),
   ("children", (13, .arrayS (14, .union [(15, .stringS), (16, .recursive 0)])))] false

/-- The list schema of the recursive-type test: an object whose children
are listItem nodes reached through a concrete (non-lazy) edge. -/
def listVS : VS := .objectS
  [("type", (10, .literal (.str ("ul")))),
   ("children", (11, .arrayS (1, itemVS)))] false

/-- Gate for tracing: encountering a named node records no conversion. -/
def traceGate (o : Option String) (t : List Nat) : List Nat :=
  match o with
  | some _ => []
  | none => t

mutual

/-- The identities of named definitions whose body gets converted while
converting this node: a named node short-circuits to a reference, so it
contributes nothing; an unnamed node contributes its children. -/
def traceNode (ctx : Ctx) : Node → List Nat
  | (id, s) => traceGate (lookupName ctx id) (traceVS ctx s)

/-- Trace of a variant: the concatenation of its children traces (no
variant converts a named definition body itself). -/
def traceVS (ctx : Ctx) : VS → List Nat
  | .nullable inner => traceNode ctx inner
  | .optionalS inner => traceNode ctx inner
  | .objectS entries _ => traceProps ctx entries
  | .record value => traceNode ctx value
  | .arrayS item => traceNode ctx item
  | .tuple items none => traceNodes ctx items
  | .tuple items (some r) => traceNodes ctx items ++ traceNode ctx r
  | .union members => traceNodes ctx members
  | .intersect members => traceNodes ctx members
  | .withFeatures inner _ => traceNode ctx inner
  | _ => []

/-- Trace of a list of child nodes. -/
def traceNodes (ctx : Ctx) : List Node → List Nat
  | [] => []
  | n :: rest => traceNode ctx n ++ traceNodes ctx rest

/-- Trace of an object property map. -/
def traceProps (ctx : Ctx) : List (String × Node) → List Nat
  | [] => []
  | (_, n) :: rest => traceNode ctx n ++ traceProps ctx rest

end

/-- Trace of the eager definitions loop: each supplied definition records
one body conversion of its identity, plus whatever its body converts. -/
def defsTrace (ctx : Ctx) : List (String × Node) → List Nat
  | [] => []
  | (_, n) :: rest => n.1 :: (traceVS ctx n.2 ++ defsTrace ctx rest)

/-- The named-definition conversions performed by one top-level call. -/
def fullTrace (opts : Options) : List Nat :=
  defsTrace (mkCtx opts) opts.definitions
    ++ (match opts.schema with
        | none => []
        | some root => traceNode (mkCtx opts) root)

/-- A context naming two structurally identical nodes differently. -/
def ctxTwo : Ctx :=
  { strictObjectTypes := false, dateStrategy := .string,
    bigintStrategy := .string, ignoreUnknownValidation := false,
    defNameMap := [(0, "A"), (1, "B")] }

/-- The context with the strict-object option disabled. -/
def looseC (c : Ctx) : Ctx := { c with strictObjectTypes := false }

/-- The context with the strict-object option enabled. -/
def strictC (c : Ctx) : Ctx := { c with strictObjectTypes := true }

/-- Gate for the strict transformation: a named node converts to the same
reference fragment in both modes, so it is left unchanged. -/
def strictGate (o : Option String) (f alt : JVal) : JVal :=
  match o with
  | some _ => f
  | none => alt

/-- Strict transformation of an object fragment: transform the property
fragments and append additionalProperties false (dropping a pre-existing
one first, so a marker-strict object is not duplicated). -/
def objStrictify (g : List (String × JVal) → List (String × JVal)) (f : JVal) : JVal :=
  match f with
  | .obj (("type", t) :: ("properties", .obj pf) :: rest) =>
    .obj (("type", t) :: ("properties", .obj (g pf)) ::
      (rest.filter (fun p => ¬ (p.1 == "additionalProperties"))
        ++ [("additionalProperties", .bool false)]))
  | other => other

/-- Strict transformation of a record fragment. -/
def recordStrictify (g : JVal → JVal) (f : JVal) : JVal :=
  match f with
  | .obj [("type", t), ("additionalProperties", af)] =>
    .obj [("type", t), ("additionalProperties", g af)]
  | other => other

/-- Strict transformation of a nullable fragment. -/
def nullableStrictify (g : JVal → JVal) (f : JVal) : JVal :=
  match f with
  | .obj [("anyOf", .arr [c0, fi])] => .obj [("anyOf", .arr [c0, g fi])]
  | other => other

/-- Strict transformation of an array fragment. -/
def arrayStrictify (g : JVal → JVal) (f : JVal) : JVal :=
  match f with
  | .obj [("type", t), ("items", fi)] => .obj [("type", t), ("items", g fi)]
  | other => other

/-- Strict transformation of a fixed-length tuple fragment. -/
def tupleFixedStrictify (g : List JVal → List JVal) (f : JVal) : JVal :=
  match f with
  | .obj [("type", t), ("items", .arr fs), ("minItems", mi), ("maxItems", ma)] =>
    .obj [("type", t), ("items", .arr (g fs)), ("minItems", mi), ("maxItems", ma)]
  | other => other

/-- Strict transformation of a tuple-with-rest fragment, both the
non-collapsed and the collapsed shape. -/
def tupleRestStrictify (g : List JVal → List JVal) (gr : JVal → JVal) (f : JVal) : JVal :=
  match f with
  | .obj [("type", t), ("items", .arr fs), ("additionalItems", af), ("minItems", mi)] =>
    .obj [("type", t), ("items", .arr (g fs)), ("additionalItems", gr af), ("minItems", mi)]
  | .obj [("type", t), ("items", fi), ("minItems", mi)] =>
    .obj [("type", t), ("items", gr fi), ("minItems", mi)]
  | other => other

/-- Strict transformation of a composition fragment under a given key. -/
def listKeyStrictify (key : String) (g : List JVal → List JVal) (f : JVal) : JVal :=
  match f with
  | .obj [(k, .arr fs)] => if k == key then .obj [(k, .arr (g fs))] else f
  | other => other

/-- Strict transformation of an extension fragment: the strict inner
fragment is recomputed and merged with the attached keywords. -/
def wfStrictify (x : Option JVal) (frag : List (String × JVal)) (f : JVal) : JVal :=
  match x with
  | some fi => mergeObj fi frag
  | none => f

mutual

/-- The strict transformation on the converted fragment of a node: what
enabling strictObjectTypes changes in the conversion of that node. -/
def strictifyN (c : Ctx) : Node → JVal → JVal
  | (id, s), f => strictGate (lookupName c id) f (strictifyVS c s f)

/-- The strict transformation on the converted fragment of a variant:
object fragments gain additionalProperties false, children are
transformed in place, and every other keyword is untouched. -/
def strictifyVS (c : Ctx) : VS → JVal → JVal
  | .anyS, f => f
  | .nullS, f => f
  | .literal _, f => f
  | .number, f => f
  | .stringS, f => f
  | .boolean, f => f
  | .nanS, f => f
  | .nullable inner, f => nullableStrictify (fun x => strictifyN c inner x) f
  | .optionalS inner, f => strictifyN c inner f
  | .objectS entries _, f => objStrictify (fun pf => strictifyProps c entries pf) f
  | .record value, f => recordStrictify (fun x => strictifyN c value x) f
  | .arrayS item, f => arrayStrictify (fun x => strictifyN c item x) f
  | .tuple items none, f => tupleFixedStrictify (fun fs => strictifyList c items fs) f
  | .tuple items (some r), f =>
    tupleRestStrictify (fun fs => strictifyList c items fs) (fun x => strictifyN c r x) f
  | .picklist _, f => f
  | .union members, f => listKeyStrictify ("anyOf") (fun fs => strictifyList c members fs) f
  | .intersect members, f => listKeyStrictify ("allOf") (fun fs => strictifyList c members fs) f
  | .recursive _, f => f
  | .date, f => f
  | .bigint, f => f
  | .undef, f => f
  | .withFeatures inner frag, f =>
    wfStrictify ((convNode (looseC c) inner).toOption.map (fun x => strictifyN c inner x))
      frag f

/-- The strict transformation on a list of child fragments. -/
def strictifyList (c : Ctx) : List Node → List JVal → List JVal
  | [], fs => fs
  | _ :: _, [] => []
  | n :: ns, fv :: fs => strictifyN c n fv :: strictifyList c ns fs

/-- The strict transformation on converted object properties. -/
def strictifyProps (c : Ctx) : List (String × Node) → List (String × JVal) →
    List (String × JVal)
  | [], fs => fs
  | _ :: _, [] => []
  | (_, n) :: es, (k2, fv) :: fs => (k2, strictifyN c n fv) :: strictifyProps c es fs

end

/-- Does a tuple-with-rest node make the same collapse decision in strict
and loose mode?  True whenever either mode fails to convert. -/
def tupleCheck : Except ConvErr (List JVal) → Except ConvErr JVal →
    Except ConvErr (List JVal) → Except ConvErr JVal → Bool
  | .ok fs, .ok rf, .ok fsS, .ok rfS => jbeqList fs [rf] == jbeqList fsS [rfS]
  | _, _, _, _ => true

/-- Gate for stability: below a named node nothing is converted. -/
def stableGate (o : Option String) (b : Bool) : Bool :=
  match o with
  | some _ => true
  | none => b

mutual

/-- Collapse stability of a node: every tuple-with-rest reachable through
conversion makes the same collapse decision in strict and loose mode. -/
def stableN (c : Ctx) : Node → Bool
  | (id, s) => stableGate (lookupName c id) (stableVS c s)

/-- Collapse stability of a variant. -/
def stableVS (c : Ctx) : VS → Bool
  | .nullable inner => stableN c inner
  | .optionalS inner => stableN c inner
  | .objectS entries _ => stableProps c entries
  | .record value => stableN c value
  | .arrayS item => stableN c item
  | .tuple items none => stableList c items
  | .tuple items (some r) =>
    stableList c items && stableN c r &&
      tupleCheck (convNodes (looseC c) items) (convNode (looseC c) r)
        (convNodes (strictC c) items) (convNode (strictC c) r)
  | .union members => stableList c members
  | .intersect members => stableList c members
  | .withFeatures inner _ => stableN c inner
  | _ => true

/-- Collapse stability of a list of child nodes. -/
def stableList (c : Ctx) : List Node → Bool
  | [] => true
  | n :: rest => stableN c n && stableList c rest

/-- Collapse stability of an object property map. -/
def stableProps (c : Ctx) : List (String × Node) → Bool
  | [] => true
  | (_, n) :: rest => stableN c n && stableProps c rest

end

mutual

/-- Remove every additionalProperties-false pair, at every nesting level.
If enabling the strict option only added such pairs to object fragments
and changed nothing else, erasing them from the strict and the loose
output would always yield equal values. -/
def eraseAP : JVal → JVal
  | .obj kvs => .obj (eraseAPKVs kvs)
  | .arr xs => .arr (eraseAPList xs)
  | other => other

/-- eraseAP on a list of values. -/
def eraseAPList : List JVal → List JVal
  | [] => []
  | x :: xs => eraseAP x :: eraseAPList xs

/-- eraseAP on a key-value list. -/
def eraseAPKVs : List (String × JVal) → List (String × JVal)
  | [] => []
  | (k, v) :: rest =>
    if k == "additionalProperties" && jbeq v (.bool false) then eraseAPKVs rest
    else (k, eraseAP v) :: eraseAPKVs rest

end

/-- A tuple whose collapse decision flips when the strict option is
enabled: one fixed empty-object item, and a rest item that is the same
empty object annotated with an additionalProperties-false keyword. -/
def cexTuple : Node :=
  (0, .tuple [(1, .objectS [] false)]
    (some (2, .withFeatures (3, .objectS [] false)
      [("additionalProperties", .bool false)])))

/-- JavaScript runtime values, as sampled by the test suite. -/
inductive JSValue : Type where
  | undef : JSValue
  | null : JSValue
  | nan : JSValue
  | num : Int → JSValue
  | str : String → JSValue
  | bool : Bool → JSValue
  | arr : List JSValue → JSValue
  | obj : List (String × JSValue) → JSValue

/-- The sample values of the test suite (SAMPLE_VALUES). -/
def sampleValues : List JSValue :=
  [.undef, .null, .num 0, .num 9999, .nan, .bool false, .bool true,
   .str (""), .str ("foo"), .obj [], .obj [("a", .str ("1"))], .arr [],
   .arr [.str ("foo")]]

/-- Strict-equality on primitive runtime values, as both the runtime
validator and the JSON validator use it: NaN equals nothing, and a fresh
symbol equals nothing; composite values are never compared by the
fragments under test. -/
def jsEq : JSValue → JSValue → Bool
  | .nan, _ => false
  | _, .nan => false
  | .undef, .undef => true
  | .null, .null => true
  | .num a, .num b => a == b
  | .str a, .str b => a == b
  | .bool a, .bool b => a == b
  | _, _ => false

/-- Equality between a JSON constant from a schema fragment and a runtime
value (used by const and enum). -/
def jvEq : JVal → JSValue → Bool
  | .null, .null => true
  | .str a, .str b => a == b
  | .num a, .num b => a == b
  | .bool a, .bool b => a == b
  | _, _ => false

/-- The runtime value a literal schema compares against; a symbol maps to
the never-equal value since a fresh symbol equals nothing. -/
def litJS : Lit → JSValue
  | .str s => .str s
  | .int n => .num n
  | .bool b => .bool b
  | .nanLit => .nan
  | .symbol => .nan

/-- Modelled from the spec: acceptance of a runtime value by a JSON
Schema fragment under draft-07 semantics for the keywords the converter
emits (ref, type, const, enum, anyOf, allOf, properties, required,
additionalProperties, items, additionalItems, minItems, maxItems; format
and the schema keyword are annotations).  A reference of the literal form
produced by the converter resolves through the supplied definitions
mapping and replaces the fragment, as in the documents the test suite
compiles; an unresolvable reference rejects, since compiling one throws.
The JSON Schema itself is an external collaborator of the repository,
treated as the known output format; fuel bounds the recursion depth and
is ample for every fragment under test.  The number type admits NaN
because the validator used by the test suite checks the JavaScript
typeof. -/
def jsonAccepts : Nat → List (String × JVal) → JVal → JSValue → Bool
  | 0, _, _, _ => false
  | Nat.succ fuel, defs, sch, v =>
    match sch with
    | .obj kvs =>
      (match olookup kvs ("$ref") with
       | some (.str r) =>
         (match defs.find? (fun d => ("#/definitions/" ++ d.1) == r) with
          | some d => jsonAccepts fuel defs d.2 v
          | none => false)
       | _ =>
          (match olookup kvs ("type") with
           | some (.str t) =>
             if t == "number" then
               (match v with | .num _ => true | .nan => true | _ => false)
             else if t == "integer" then
               (match v with | .num _ => true | _ => false)
             else if t == "string" then
               (match v with | .str _ => true | _ => false)
             else if t == "boolean" then
               (match v with | .bool _ => true | _ => false)
             else if t == "object" then
               (match v with | .obj _ => true | _ => false)
             else if t == "array" then
               (match v with | .arr _ => true | _ => false)
             else if t == "null" then
               (match v with | .null => true | _ => false)
             else true
           | _ => true) &&
          (match olookup kvs ("const") with
           | some cv => jvEq cv v
           | none => true) &&
          (match olookup kvs ("enum") with
           | some (.arr es) => es.any (fun e => jvEq e v)
           | _ => true) &&
          (match olookup kvs ("anyOf") with
           | some (.arr ss) => ss.any (fun sub => jsonAccepts fuel defs sub v)
           | _ => true) &&
          (match olookup kvs ("allOf") with
           | some (.arr ss) => ss.all (fun sub => jsonAccepts fuel defs sub v)
           | _ => true) &&
          (match olookup kvs ("properties"), v with
           | some (.obj pf), .obj vkvs =>
             pf.all (fun e =>
               match vkvs.find? (fun p => p.1 == e.1) with
               | some p => jsonAccepts fuel defs e.2 p.2
               | none => true)
           | _, _ => true) &&
          (match olookup kvs ("required"), v with
           | some (.arr names), .obj vkvs =>
             names.all (fun nm =>
               match nm with
               | .str nm2 => vkvs.any (fun p => p.1 == nm2)
               | _ => true)
           | _, _ => true) &&
          (match olookup kvs ("additionalProperties"), v with
           | some (.bool b), .obj vkvs =>
             b || vkvs.all (fun p =>
               (match olookup kvs ("properties") with
                | some (.obj pf) => pf.any (fun e => e.1 == p.1)
                | _ => false))
           | some (.bool _), _ => true
           | some sub, .obj vkvs =>
             vkvs.all (fun p =>
               (match olookup kvs ("properties") with
                | some (.obj pf) => pf.any (fun e => e.1 == p.1)
                | _ => false) || jsonAccepts fuel defs sub p.2)
           | _, _ => true) &&
          (match olookup kvs ("items"), v with
           | some (.arr ss), .arr xs =>
             (xs.zip ss).all (fun p => jsonAccepts fuel defs p.2 p.1)
           | some sub, .arr xs => xs.all (fun x => jsonAccepts fuel defs sub x)
           | _, _ => true) &&
          (match olookup kvs ("additionalItems"), olookup kvs ("items"), v with
           | some sub, some (.arr ss), .arr xs =>
             (xs.drop ss.length).all (fun x => jsonAccepts fuel defs sub x)
           | _, _, _ => true) &&
          (match olookup kvs ("minItems"), v with
           | some (.num n), .arr xs => n ≤ (xs.length : Int)
           | _, _ => true) &&
          (match olookup kvs ("maxItems"), v with
           | some (.num n), .arr xs => (xs.length : Int) ≤ n
           | _, _ => true))
    | _ => true

/-- Modelled from the spec: acceptance of a runtime value by the source
validator, for the schema kinds under test.  The runtime validator is an
external collaborator (spec section 1 keeps it out of scope and section 8
states the agreement property); its behaviour here follows the valid and
invalid values the test suite records: any accepts everything; number
accepts NaN (a JavaScript number); optional accepts undefined; an object
checks declared keys only (unknown keys pass, a strict marker forbids
them) and accepts only objects; a record accepts objects and also arrays,
whose elements play the role of values (pinned by the record tests); a
tuple without rest demands the exact length; date and bigint accept only
Date and BigInt values, which lie outside the sampled JSON universe; a
recursive node invokes its deferred accessor, modelled by resolving the
target identity in the supplied graph environment.  Fuel bounds the
recursion depth. -/
def valibotAccepts : Nat → List (Nat × VS) → VS → JSValue → Bool
  | 0, _, _, _ => false
  | Nat.succ fuel, env, s, v =>
    match s with
    | .anyS => true
    | .nullS => (match v with | .null => true | _ => false)
    | .literal l => jsEq (litJS l) v
    | .number => (match v with | .num _ => true | .nan => true | _ => false)
    | .stringS => (match v with | .str _ => true | _ => false)
    | .boolean => (match v with | .bool _ => true | _ => false)
    | .nanS => (match v with | .nan => true | _ => false)
    | .nullable inner =>
      (match v with | .null => true | _ => false) || valibotAccepts fuel env inner.2 v
    | .optionalS inner =>
      (match v with | .undef => true | _ => false) || valibotAccepts fuel env inner.2 v
    | .objectS entries strictM =>
      (match v with
       | .obj vkvs =>
         entries.all (fun e =>
           valibotAccepts fuel env e.2.2
             (match vkvs.find? (fun p => p.1 == e.1) with
              | some p => p.2
              | none => .undef)) &&
         (!strictM || vkvs.all (fun p => entries.any (fun e => e.1 == p.1)))
       | _ => false)
    | .record value =>
      (match v with
       | .obj vkvs => vkvs.all (fun p => valibotAccepts fuel env value.2 p.2)
       | .arr xs => xs.all (fun x => valibotAccepts fuel env value.2 x)
       | _ => false)
    | .arrayS item =>
      (match v with
       | .arr xs => xs.all (fun x => valibotAccepts fuel env item.2 x)
       | _ => false)
    | .tuple items rest =>
      (match v with
       | .arr xs =>
         decide (items.length ≤ xs.length) &&
         ((xs.zip items).all (fun p => valibotAccepts fuel env p.2.2 p.1)) &&
         (match rest with
          | none => decide (xs.length = items.length)
          | some r => (xs.drop items.length).all (fun x => valibotAccepts fuel env r.2 x))
       | _ => false)
    | .picklist vs => (match v with | .str s2 => vs.contains s2 | _ => false)
    | .union ms => ms.any (fun m => valibotAccepts fuel env m.2 v)
    | .intersect ms => ms.all (fun m => valibotAccepts fuel env m.2 v)
    | .recursive t =>
      (match env.find? (fun p => p.1 == t) with
       | some p => valibotAccepts fuel env p.2 v
       | none => false)
    | .date => false
    | .bigint => false
    | .undef => (match v with | .undef => true | _ => false)
    | .withFeatures inner _ => valibotAccepts fuel env inner.2 v

/-- The fragment a schema converts to under default options (total, for
use in closed acceptance statements; every representative converts). -/
def fragOf (s : VS) : JVal :=
  (convVS ctx0 s).toOption.getD (.obj [])

/-- Does the source validator agree with the generated fragment on every
sample value, for this self-contained schema? -/
def agreesOnSamples (s : VS) : Bool :=
  sampleValues.all (fun v =>
    valibotAccepts 100 [] s v == jsonAccepts 100 [] (fragOf s) v)

/-- The converted fragment of the list definition, as the recursive-type
test expects it. -/
def listFrag : JVal := .obj [("type", .str ("object")),
  ("properties", .obj [
    ("type", .obj [("const", .str ("ul"))]),
    ("children", .obj [("type", .str ("array")),
      ("items", .obj [("$ref", .str ("#/definitions/listItem"))])])]),
  ("required", .arr [.str ("type"), .str ("children")])]

/-- The converted fragment of the listItem definition, as the
recursive-type test expects it. -/
def itemFrag : JVal := .obj [("type", .str ("object")),
  ("properties", .obj [
    ("type", .obj [("const", .str ("li"))]),
    ("children", .obj [("type", .str ("array")),
      ("items", .obj [("anyOf", .arr [
        .obj [("type", .str ("string"))],
        .obj [("$ref", .str ("#/definitions/list"))]])])])]),
  ("required", .arr [.str ("type"), .str ("children")])]

/-- The generated definitions mapping of the recursive-type document. -/
def recDefs : List (String × JVal) := [("list", listFrag), ("listItem", itemFrag)]

/-- The source graph environment of the recursive-type schema pair. -/
def recEnv : List (Nat × VS) := [(0, listVS), (1, itemVS)]

/-- The values the recursive representative is checked on: every sample
value plus the two valid list documents of the recursive-type test,
including the nested one. -/
def recValues : List JSValue := sampleValues ++
  [.obj [("type", .str ("ul")), ("children", .arr [
      .obj [("type", .str ("li")), ("children", .arr [.str ("List item 1")])]])],
   .obj [("type", .str ("ul")), ("children", .arr [
      .obj [("type", .str ("li")), ("children", .arr [
        .str ("List item 1"),
        .obj [("type", .str ("ul")), ("children", .arr [
          .obj [("type", .str ("li")),
            ("children", .arr [.str ("List item 2 (nested)")])]])]])]])]]

/-- Does the source validator, resolving its deferred accessors through
the schema graph, agree with the generated root reference, resolving its
references through the generated definitions, on every such value? -/
def recAgrees : Bool := recValues.all (fun v =>
  valibotAccepts 100 recEnv listVS v == jsonAccepts 100 recDefs (refFrag ("list")) v)

/-- Converting a list of nodes preserves the number of fragments. -/
theorem convNodes_length (ctx : Ctx) :
    ∀ (l : List Node) (fs : List JVal), convNodes ctx l = .ok fs → fs.length = l.length := by
  intro l
  induction l with
  | nil =>
    intro fs h
    simp only [convNodes] at h
    injection h with h2
    simp [← h2]
  | cons n rest ih =>
    intro fs h
    simp only [convNodes] at h
    cases hn : convNode ctx n with
    | error e => rw [hn] at h; exact absurd h (by simp [Except.bind])
    | ok f =>
      rw [hn] at h
      cases hr : convNodes ctx rest with
      | error e => rw [hr] at h; exact absurd h (by simp [Except.bind])
      | ok fs2 =>
        rw [hr] at h
        simp [Except.bind] at h
        simp [← h, ih fs2 hr]

/-- C1: when the dispatcher reaches a recursive/lazy node (itself not a
named definition), the target identity yielded by the deferred accessor is
looked up in the definition-name map: if present the node converts to
exactly the reference fragment for that name, and if absent conversion
fails with the missing-definition error whose message is the one pinned by
the test suite; no inline fragment for the target is ever produced. -/
theorem C1_recursive_resolution (ctx : Ctx) (id t : Nat)
    (h : lookupName ctx id = none) :
    (∀ name, lookupName ctx t = some name →
      convNode ctx (id, .recursive t) = .ok (refFrag name)) ∧
    (lookupName ctx t = none →
      convNode ctx (id, .recursive t) = .error (.missingDefinition
        ("Type inside recursive schema must be provided in the definitions"))) := by
  constructor
  · intro name hn
    simp [convNode, h, convVS, hn, refOrElse]
  · intro hn
    simp [convNode, h, convVS, hn, refOrElse]

/-- Witness for C1 at concrete inputs: with only identity 5 named, a
recursive node targeting 5 becomes a reference and one targeting 6 fails. -/
theorem C1_recursive_resolution_witness :
    convNode ctxList (9, .recursive 5) = .ok (refFrag ("list")) ∧
    convNode ctxList (9, .recursive 6) = .error (.missingDefinition
      ("Type inside recursive schema must be provided in the definitions")) :=
  ⟨(C1_recursive_resolution ctxList 9 5 (by decide)).1 ("list") (by decide),
   (C1_recursive_resolution ctxList 9 6 (by decide)).2 (by decide)⟩

/-- C3 (tuple conversion): with exactly one fixed item and a rest item the
converter collapses to the homogeneous form when the converted fragments
are structurally equal, produces the items/additionalItems form (without
maxItems) when they differ, and with no rest item produces items together
with minItems and maxItems both equal to the fixed-item count. -/
theorem C3_tuple_conversion (ctx : Ctx) :
    (∀ i r f rf, convNode ctx i = .ok f → convNode ctx r = .ok rf →
      jbeq f rf = true →
      convVS ctx (.tuple [i] (some r)) = .ok (.obj [("type", .str ("array")),
        ("items", rf), ("minItems", .num 1)])) ∧
    (∀ i r f rf, convNode ctx i = .ok f → convNode ctx r = .ok rf →
      jbeq f rf = false →
      convVS ctx (.tuple [i] (some r)) = .ok (.obj [("type", .str ("array")),
        ("items", .arr [f]), ("additionalItems", rf), ("minItems", .num 1)])) ∧
    (∀ items fs, convNodes ctx items = .ok fs →
      convVS ctx (.tuple items none) = .ok (.obj [("type", .str ("array")),
        ("items", .arr fs), ("minItems", .num items.length),
        ("maxItems", .num items.length)])) := by
  refine ⟨?_, ?_, ?_⟩
  · intro i r f rf hi hr hb
    simp [convVS, convNodes, hi, hr, Except.bind, tupleRestOut, jbeqList, hb]
  · intro i r f rf hi hr hb
    simp [convVS, convNodes, hi, hr, Except.bind, tupleRestOut, jbeqList, hb]
  · intro items fs h
    simp [convVS, h, Except.bind, tupleFixedOut, convNodes_length ctx items fs h]

/-- Witness for C3 at the tuples of the test suite: a number-string pair,
a number followed by strings, and a string followed by more strings. -/
theorem C3_tuple_conversion_witness :
    convVS ctx0 (.tuple [(1, .stringS)] (some (2, .stringS))) =
      .ok (.obj [("type", .str ("array")), ("items", .obj [("type", .str ("string"))]),
        ("minItems", .num 1)]) ∧
    convVS ctx0 (.tuple [(1, .number)] (some (2, .stringS))) =
      .ok (.obj [("type", .str ("array")),
        ("items", .arr [.obj [("type", .str ("number"))]]),
        ("additionalItems", .obj [("type", .str ("string"))]), ("minItems", .num 1)]) ∧
    convVS ctx0 (.tuple [(1, .number), (2, .stringS)] none) =
      .ok (.obj [("type", .str ("array")),
        ("items", .arr [.obj [("type", .str ("number"))], .obj [("type", .str ("string"))]]),
        ("minItems", .num 2), ("maxItems", .num 2)]) :=
  ⟨(C3_tuple_conversion ctx0).1 (1, .stringS) (2, .stringS) _ _ rfl rfl rfl,
   (C3_tuple_conversion ctx0).2.1 (1, .number) (2, .stringS) _ _ rfl rfl rfl,
   (C3_tuple_conversion ctx0).2.2 [(1, .number), (2, .stringS)] _ rfl⟩

/-- Counterexample for C4: an object whose only key is optional converts
to a fragment with no required keyword at all, while the claim as stated
demands a required list (empty here) in every object fragment.  This is
pinned by the empty-object test, whose expected fragment has no required
key. -/
theorem C4_counterexample :
    convVS ctx0 (.objectS [("optionalString", (2, .optionalS (3, .stringS)))] false) =
      .ok (.obj [("type", .str ("object")),
        ("properties", .obj [("optionalString", .obj [("type", .str ("string"))])])]) ∧
    convVS ctx0 (.objectS [] false) =
      .ok (.obj [("type", .str ("object")), ("properties", .obj [])]) ∧
    jGet ("required") (.obj [("type", .str ("object")), ("properties", .obj [])]) =
      none := ⟨rfl, rfl, rfl⟩

/-- C4 as amended: an object fragment is type/properties/required with the
required list holding the non-optional keys in declaration order, except
that the required keyword is omitted entirely when that list is empty;
an optional wrapper converts exactly as its inner schema. -/
theorem C4_object_conversion (ctx : Ctx) (entries : List (String × Node))
    (props : List (String × JVal))
    (hs : ctx.strictObjectTypes = false)
    (hp : convProps ctx entries = .ok props) :
    (convVS ctx (.objectS entries false) = .ok (.obj
      ([("type", .str ("object")), ("properties", .obj props)]
        ++ (if ((entries.filter (fun e => ¬ isOptionalVS e.2.2)).map (fun e => e.1)).isEmpty
            then []
            else [("required", .arr (((entries.filter (fun e => ¬ isOptionalVS e.2.2)).map
              (fun e => e.1)).map .str))])))) ∧
    (∀ inner, convVS ctx (.optionalS inner) = convNode ctx inner) := by
  constructor
  · simp [convVS, hp, hs, Except.bind, objectOut, requiredKeys]
  · intro inner
    simp [convVS]

/-- Witness for C4 at the object of the test suite, with one plain and one
optional string property. -/
theorem C4_object_conversion_witness :
    convVS ctx0 (.objectS [("string", (1, .stringS)),
        ("optionalString", (2, .optionalS (3, .stringS)))] false) =
      .ok (.obj [("type", .str ("object")),
        ("properties", .obj [("string", .obj [("type", .str ("string"))]),
          ("optionalString", .obj [("type", .str ("string"))])]),
        ("required", .arr [.str ("string")])]) ∧
    convVS ctx0 (.optionalS (3, .stringS)) = convNode ctx0 (3, .stringS) := by
  have h := C4_object_conversion ctx0
    [("string", (1, .stringS)), ("optionalString", (2, .optionalS (3, .stringS)))]
    [("string", .obj [("type", .str ("string"))]),
      ("optionalString", .obj [("type", .str ("string"))])] rfl rfl
  exact ⟨h.1, h.2 (3, .stringS)⟩

/-- The merge step of mergeKVs preserves the key of each base pair. -/
theorem mergeFn_fst (frag : List (String × JVal)) (kv : String × JVal) :
    ((match frag.find? (fun p => p.1 == kv.1) with
      | some p => (kv.1, p.2)
      | none => kv) : String × JVal).1 = kv.1 := by
  cases frag.find? (fun p => p.1 == kv.1) <;> rfl

/-- Finding a key in the mapped base of a merge mirrors finding it in the
base itself. -/
theorem find?_mapped_base (frag base : List (String × JVal)) (k : String) :
    (base.map (fun kv =>
      match frag.find? (fun p => p.1 == kv.1) with
      | some p => (kv.1, p.2)
      | none => kv)).find? (fun p => p.1 == k) =
    (base.find? (fun p => p.1 == k)).map (fun kv =>
      match frag.find? (fun p => p.1 == kv.1) with
      | some p => (kv.1, p.2)
      | none => kv) := by
  induction base with
  | nil => simp
  | cons b rest ih =>
    cases hb : (b.1 == k) with
    | true =>
      simp only [List.map_cons, List.find?]
      rw [mergeFn_fst frag b]
      simp [hb]
    | false =>
      simp only [List.map_cons, List.find?]
      rw [mergeFn_fst frag b]
      simp [hb, ih]

/-- Finding a key in the appendix of a merge: an entry of the attached
fragment whose key collides with no base key survives the filter and is
still found first. -/
theorem find?_filtered_frag (base : List (String × JVal)) (k : String)
    (q : String × JVal) :
    ∀ (frag : List (String × JVal)),
    frag.find? (fun p => p.1 == k) = some q →
    (∀ kv ∈ base, ¬ (kv.1 == k)) →
    (frag.filter (fun p => base.all (fun kv => ¬ (kv.1 == p.1)))).find?
      (fun p => p.1 == k) = some q := by
  intro frag
  induction frag with
  | nil => intro h; simp [List.find?] at h
  | cons f0 rest ih =>
    intro h hbase
    cases hb : (f0.1 == k) with
    | true =>
      simp only [List.find?, hb] at h
      have hk : f0.1 = k := eq_of_beq hb
      have hkeep : base.all (fun kv => ¬ (kv.1 == f0.1)) = true := by
        rw [List.all_eq_true]
        intro kv hkv
        simp only [hk]
        simpa using hbase kv hkv
      simp only [List.filter, hkeep, List.find?, hb]
      simpa using h
    | false =>
      simp only [List.find?, hb] at h
      cases hkeep : base.all (fun kv => ¬ (kv.1 == f0.1)) with
      | true =>
        simp only [List.filter, hkeep, List.find?, hb]
        exact ih h hbase
      | false =>
        simp only [List.filter, hkeep]
        exact ih h hbase

/-- Looking up a key of the attached fragment in a merged fragment always
yields the attached value: attached keys override the base. -/
theorem olookup_mergeKVs (base frag : List (String × JVal)) (k : String)
    (v : JVal) (h : olookup frag k = some v) :
    olookup (mergeKVs base frag) k = some v := by
  obtain ⟨q, hq, hv⟩ : ∃ q, frag.find? (fun p => p.1 == k) = some q ∧ q.2 = v := by
    unfold olookup at h
    cases hf : frag.find? (fun p => p.1 == k) with
    | none => rw [hf] at h; simp at h
    | some q => rw [hf] at h; simp at h; exact ⟨q, rfl, h⟩
  unfold olookup mergeKVs
  rw [List.find?_append]
  cases hbf : base.find? (fun p => p.1 == k) with
  | some b =>
    have hmapped := find?_mapped_base frag base k
    rw [hbf] at hmapped
    have hb1 : b.1 = k := by
      have := List.find?_some hbf
      exact eq_of_beq this
    rw [hmapped]
    have hfb : frag.find? (fun p => p.1 == b.1) = some q := by rw [hb1]; exact hq
    simp [Option.or, hfb, hv]
  | none =>
    have hmapped := find?_mapped_base frag base k
    rw [hbf] at hmapped
    rw [hmapped]
    have hbase : ∀ kv ∈ base, ¬ (kv.1 == k) := by
      intro kv hkv
      have := List.find?_eq_none.mp hbf kv hkv
      simpa using this
    rw [find?_filtered_frag base k q frag hq hbase]
    simp [Option.or, hv]

/-- C9: a schema node wrapped in an extension annotation converts to the
conversion of the inner schema shallow-merged with the attached keyword
fragment, and every key of the attached fragment reads back with the
attached value in the merged fragment, overriding any key the base
converter produced. -/
theorem C9_extension_merge (ctx : Ctx) (inner : Node)
    (frag kvs : List (String × JVal))
    (h : convNode ctx inner = .ok (.obj kvs)) :
    convVS ctx (.withFeatures inner frag) = .ok (mergeObj (.obj kvs) frag) ∧
    (∀ k v, olookup frag k = some v →
      jGet k (mergeObj (.obj kvs) frag) = some v) := by
  constructor
  · simp [convVS, h, Except.bind]
  · intro k v hkv
    simp only [mergeObj, jGet]
    exact olookup_mergeKVs kvs frag k v hkv

/-- Witness for C9 at the extension test case: an array schema annotated
with a minItems fragment, plus an override of the type keyword. -/
theorem C9_extension_merge_witness :
    convVS ctx0 (.withFeatures (1, .arrayS (2, .stringS)) [("minItems", .num 2)]) =
      .ok (.obj [("type", .str ("array")), ("items", .obj [("type", .str ("string"))]),
        ("minItems", .num 2)]) ∧
    jGet ("minItems") (mergeObj (.obj [("type", .str ("array")),
      ("items", .obj [("type", .str ("string"))])]) [("minItems", .num 2)]) =
      some (.num 2) := by
  have h := C9_extension_merge ctx0 (1, .arrayS (2, .stringS)) [("minItems", .num 2)]
    [("type", .str ("array")), ("items", .obj [("type", .str ("string"))])] rfl
  exact ⟨h.1, h.2 ("minItems") (.num 2) rfl⟩

/-- Counterexample for C6: the unsupported-kind error message pinned by
the test suite is Unsupported valibot schema followed by the kind, not
Unsupported schema as the claim states. -/
theorem C6_counterexample :
    convVS ctx0 .nanS = .error (.unsupportedKind ("Unsupported valibot schema: nan")) ∧
    (ConvErr.unsupportedKind ("Unsupported valibot schema: nan")).message ≠
      "Unsupported schema: nan" := ⟨rfl, by decide⟩

/-- C6 as amended: a schema kind with no registered converter (the
NaN-only numeric kind in this model) fails with the unsupported-kind error
whose message is Unsupported valibot schema followed by the kind tag; it
is never silently skipped. -/
theorem C6_unsupported_kind (ctx : Ctx) :
    convVS ctx .nanS =
      .error (.unsupportedKind ("Unsupported valibot schema: " ++ kindName .nanS)) := by
  simp [convVS, kindName]

/-- C10: any node registered in the definition-name map converts to the
bare reference fragment for its name wherever it is reached, including
through concrete non-recursive child edges; concretely, the recursive-type
test document renders the listItem definition referenced inside the list
definition as a reference, not as an inlined fragment. -/
theorem C10_named_nodes_become_refs :
    (∀ (ctx : Ctx) (n : Node) (name : String),
      lookupName ctx n.1 = some name → convNode ctx n = .ok (refFrag name)) ∧
    toJSONSchema
      { schema := some (0, listVS),
        definitions := [("list", (0, listVS)), ("listItem", (1, itemVS))] } =
    .ok (.obj [("$schema", .str schemaURI),
      ("$ref", .str ("#/definitions/list")),
      ("definitions", .obj [
        ("list", .obj [("type", .str ("object")),
          ("properties", .obj [
            ("type", .obj [("const", .str ("ul"))]),
            ("children", .obj [("type", .str ("array")),
              ("items", .obj [("$ref", .str ("#/definitions/listItem"))])])]),
          ("required", .arr [.str ("type"), .str ("children")])]),
        ("listItem", .obj [("type", .str ("object")),
          ("properties", .obj [
            ("type", .obj [("const", .str ("li"))]),
            ("children", .obj [("type", .str ("array")),
              ("items", .obj [("anyOf", .arr [
                .obj [("type", .str ("string"))],
                .obj [("$ref", .str ("#/definitions/list"))]])])])]),
          ("required", .arr [.str ("type"), .str ("children")])])])]) := by
  constructor
  · intro ctx n name h
    obtain ⟨id, s⟩ := n
    simp only [convNode]
    rw [h]
    rfl
  · rfl

/-- Witness for C10 at a concrete input: identity 5 is named, so a number
node carrying identity 5 converts to the reference fragment. -/
theorem C10_named_nodes_become_refs_witness :
    convNode ctxList (5, .number) = .ok (refFrag ("list")) :=
  C10_named_nodes_become_refs.1 ctxList (5, .number) ("list") (by decide)

/-- Converting a definitions list preserves its length. -/
theorem convDefs_length (ctx : Ctx) :
    ∀ (l : List (String × Node)) (ds : List (String × JVal)),
      convDefs ctx l = .ok ds → ds.length = l.length := by
  intro l
  induction l with
  | nil =>
    intro ds h
    simp only [convDefs] at h
    injection h with h2
    simp [← h2]
  | cons d rest ih =>
    intro ds h
    simp only [convDefs] at h
    cases hn : convVS ctx d.2.2 with
    | error e => rw [hn] at h; exact absurd h (by simp [Except.bind])
    | ok f =>
      rw [hn] at h
      cases hr : convDefs ctx rest with
      | error e => rw [hr] at h; exact absurd h (by simp [Except.bind])
      | ok ds2 =>
        rw [hr] at h
        simp [Except.bind] at h
        simp [← h, ih ds2 hr]

/-- C2: document assembly by the root orchestrator.  With a supplied main
schema whose identity is named, the document is the schema keyword, a
reference to that name and the definitions object; with an unnamed main
schema the converted fragment is inlined after the schema keyword, with
the definitions object appended only when definitions exist; with no main
schema but nonempty definitions, the document is the schema keyword and
the definitions object, with no reference. -/
theorem C2_document_assembly (opts : Options) (ds : List (String × JVal))
    (hd : convDefs (mkCtx opts) opts.definitions = .ok ds) :
    (∀ root name, opts.schema = some root →
      lookupName (mkCtx opts) root.1 = some name →
      toJSONSchema opts = .ok (.obj [("$schema", .str schemaURI),
        ("$ref", .str ("#/definitions/" ++ name)), ("definitions", .obj ds)])) ∧
    (∀ root f, opts.schema = some root →
      lookupName (mkCtx opts) root.1 = none →
      convNode (mkCtx opts) root = .ok f →
      toJSONSchema opts = .ok (.obj (("$schema", .str schemaURI) :: jkvs f
        ++ (if ds.isEmpty then [] else [("definitions", .obj ds)])))) ∧
    (opts.schema = none → opts.definitions ≠ [] →
      toJSONSchema opts = .ok (.obj [("$schema", .str schemaURI),
        ("definitions", .obj ds)])) := by
  refine ⟨?_, ?_, ?_⟩
  · intro root name hs hn
    have hne : opts.definitions ≠ [] := by
      intro hnil
      simp [mkCtx, buildDefNameMap, lookupName, hnil] at hn
    have hdne : ds.isEmpty = false := by
      cases hds : ds with
      | nil =>
        have := convDefs_length (mkCtx opts) opts.definitions ds hd
        rw [hds] at this
        exact absurd (List.length_eq_zero.mp this.symm) hne
      | cons x xs => simp
    cases hdefs : opts.definitions with
    | nil => exact absurd hdefs hne
    | cons d rest =>
      rw [hdefs] at hd
      simp only [toJSONSchema, hs, hdefs, hd, hn, hdne]
      simp
  · intro root f hs hn hc
    cases hdefs : opts.definitions with
    | nil =>
      rw [hdefs] at hd
      simp only [convDefs] at hd
      injection hd with h2
      simp only [toJSONSchema, hs, hdefs, convDefs, hn, hc, refOrElse, ← h2]
    | cons d rest =>
      rw [hdefs] at hd
      simp only [toJSONSchema, hs, hdefs, hd, hn, hc, refOrElse]
  · intro hs hne
    cases hdefs : opts.definitions with
    | nil => exact absurd hdefs hne
    | cons d rest =>
      rw [hdefs] at hd
      simp only [toJSONSchema, hs, hdefs, hd]

/-- Witness for C2 at the definitions tests: a number schema that is
itself a named definition, an unnamed number schema with no definitions,
and a definitions-only call. -/
theorem C2_document_assembly_witness :
    toJSONSchema
      { schema := some (0, .number),
        definitions := [("NumberSchema", (0, .number)), ("StringSchema", (1, .stringS))] } =
      .ok (.obj [("$schema", .str schemaURI),
        ("$ref", .str ("#/definitions/NumberSchema")),
        ("definitions", .obj [("NumberSchema", .obj [("type", .str ("number"))]),
          ("StringSchema", .obj [("type", .str ("string"))])])]) ∧
    toJSONSchema { schema := some (0, .number) } =
      .ok (.obj [("$schema", .str schemaURI), ("type", .str ("number"))]) ∧
    toJSONSchema { definitions := [("NumberSchema", (0, .number))] } =
      .ok (.obj [("$schema", .str schemaURI),
        ("definitions", .obj [("NumberSchema", .obj [("type", .str ("number"))])])]) := by
  refine ⟨?_, ?_, ?_⟩
  · exact (C2_document_assembly
      { schema := some (0, .number),
        definitions := [("NumberSchema", (0, .number)), ("StringSchema", (1, .stringS))] }
      [("NumberSchema", .obj [("type", .str ("number"))]),
        ("StringSchema", .obj [("type", .str ("string"))])] rfl).1
      (0, .number) ("NumberSchema") rfl rfl
  · exact ((C2_document_assembly { schema := some (0, .number) } [] rfl).2.1
      (0, .number) (.obj [("type", .str ("number"))]) rfl rfl rfl)
  · exact ((C2_document_assembly { definitions := [("NumberSchema", (0, .number))] }
      [("NumberSchema", .obj [("type", .str ("number"))])] rfl).2.2 rfl (by simp))

mutual

/-- Traversal of a node converts no named definition body. -/
theorem traceNode_nil (ctx : Ctx) : (n : Node) → traceNode ctx n = []
  | (id, s) => by
    simp only [traceNode, traceGate]
    cases lookupName ctx id with
    | some name => rfl
    | none => exact traceVS_nil ctx s

/-- Traversal of a variant converts no named definition body. -/
theorem traceVS_nil (ctx : Ctx) : (s : VS) → traceVS ctx s = []
  | .anyS => rfl
  | .nullS => rfl
  | .literal _ => rfl
  | .number => rfl
  | .stringS => rfl
  | .boolean => rfl
  | .nanS => rfl
  | .nullable inner => by simp only [traceVS]; exact traceNode_nil ctx inner
  | .optionalS inner => by simp only [traceVS]; exact traceNode_nil ctx inner
  | .objectS entries _ => by simp only [traceVS]; exact traceProps_nil ctx entries
  | .record value => by simp only [traceVS]; exact traceNode_nil ctx value
  | .arrayS item => by simp only [traceVS]; exact traceNode_nil ctx item
  | .tuple items none => by simp only [traceVS]; exact traceNodes_nil ctx items
  | .tuple items (some r) => by
    simp only [traceVS, traceNodes_nil ctx items, traceNode_nil ctx r]
    rfl
  | .picklist _ => rfl
  | .union members => by simp only [traceVS]; exact traceNodes_nil ctx members
  | .intersect members => by simp only [traceVS]; exact traceNodes_nil ctx members
  | .recursive _ => rfl
  | .date => rfl
  | .bigint => rfl
  | .undef => rfl
  | .withFeatures inner _ => by simp only [traceVS]; exact traceNode_nil ctx inner

/-- Traversal of a node list converts no named definition body. -/
theorem traceNodes_nil (ctx : Ctx) : (l : List Node) → traceNodes ctx l = []
  | [] => rfl
  | n :: rest => by
    simp only [traceNodes, traceNode_nil ctx n, traceNodes_nil ctx rest]
    rfl

/-- Traversal of a property map converts no named definition body. -/
theorem traceProps_nil (ctx : Ctx) : (l : List (String × Node)) → traceProps ctx l = []
  | [] => rfl
  | (k, n) :: rest => by
    simp only [traceProps, traceNode_nil ctx n, traceProps_nil ctx rest]
    rfl

end

/-- The definitions-loop trace is exactly the supplied identities in
supplied order. -/
theorem defsTrace_eq_ids (ctx : Ctx) :
    ∀ l : List (String × Node), defsTrace ctx l = l.map (fun d => d.2.1) := by
  intro l
  induction l with
  | nil => rfl
  | cons d rest ih =>
    obtain ⟨name, n⟩ := d
    simp only [defsTrace, traceVS_nil ctx n.2, ih, List.map_cons]
    rfl

/-- C8: one conversion call never converts a named definition body more
than once, and naming is keyed by node identity.  First, encountering a
named node yields a bare reference and converts no definition body.
Second, when the supplied definitions carry pairwise distinct identities,
the list of definition-body conversions performed by a top-level call has
no duplicate identity.  Third, naming is by reference identity, not
structure: two structurally identical number nodes with distinct
identities resolve to distinct names.  The definition-name map itself is
immutable during conversion (the converter only reads it), so an identity
is never reassigned. -/
theorem C8_identity_memoization (opts : Options) :
    (∀ (ctx : Ctx) (n : Node) (name : String), lookupName ctx n.1 = some name →
      convNode ctx n = .ok (refFrag name) ∧ traceNode ctx n = []) ∧
    ((opts.definitions.map (fun d => d.2.1)).Nodup → (fullTrace opts).Nodup) ∧
    (convNode ctxTwo (0, .number) = .ok (refFrag ("A")) ∧
     convNode ctxTwo (1, .number) = .ok (refFrag ("B"))) := by
  refine ⟨?_, ?_, ?_, ?_⟩
  · intro ctx n name h
    obtain ⟨id, s⟩ := n
    constructor
    · simp only [convNode]
      rw [h]
      rfl
    · exact traceNode_nil ctx (id, s)
  · intro h
    unfold fullTrace
    rw [defsTrace_eq_ids]
    cases hs : opts.schema with
    | none => simpa using h
    | some root => simp [traceNode_nil (mkCtx opts) root, h]
  · rfl
  · rfl

/-- Witness for C8 at the recursive-type options: the two definition
identities are distinct, so the full trace of the call has no duplicates;
and a named node resolves to its reference with an empty trace. -/
theorem C8_identity_memoization_witness :
    (fullTrace
      { schema := some (0, listVS),
        definitions := [("list", (0, listVS)), ("listItem", (1, itemVS))] }).Nodup ∧
    convNode ctxList (5, .number) = .ok (refFrag ("list")) ∧
    traceNode ctxList (5, .number) = [] := by
  have h := C8_identity_memoization
    { schema := some (0, listVS),
      definitions := [("list", (0, listVS)), ("listItem", (1, itemVS))] }
  have h1 := h.1 ctxList (5, .number) ("list") (by decide)
  exact ⟨h.2.1 (by decide), h1.1, h1.2⟩

/-- Enabling the strict flag does not change the name map. -/
theorem lookupName_strictC (c : Ctx) (id : Nat) :
    lookupName (strictC c) id = lookupName c id := rfl

/-- Disabling the strict flag does not change the name map. -/
theorem lookupName_looseC (c : Ctx) (id : Nat) :
    lookupName (looseC c) id = lookupName c id := rfl

/-- The strict transformation preserves the length of fragment lists. -/
theorem strictifyList_length (c : Ctx) :
    ∀ (ns : List Node) (fs : List JVal), (strictifyList c ns fs).length = fs.length := by
  intro ns
  induction ns with
  | nil => intro fs; simp [strictifyList]
  | cons n rest ih =>
    intro fs
    cases fs with
    | nil => simp [strictifyList]
    | cons f ftail => simp [strictifyList, ih]

mutual

/-- Converting a node with the strict option enabled equals the loose
conversion transformed by the strict transformation, whenever every
reachable tuple makes the same collapse decision in both modes. -/
theorem strictEqN (c : Ctx) : (n : Node) → stableN c n = true →
    convNode (strictC c) n = (convNode (looseC c) n).map (fun f => strictifyN c n f)
  | (id, s), h => by
    simp only [convNode, lookupName_strictC, lookupName_looseC]
    cases hl : lookupName c id with
    | some name =>
      simp [refOrElse, strictifyN, strictGate, hl, Except.map]
    | none =>
      have hs : stableVS c s = true := by
        simp only [stableN, stableGate, hl] at h
        exact h
      simp only [refOrElse, strictifyN, strictGate, hl]
      exact strictEqVS c s hs

/-- Variant case of the strict-transformation equation. -/
theorem strictEqVS (c : Ctx) : (s : VS) → stableVS c s = true →
    convVS (strictC c) s = (convVS (looseC c) s).map (fun f => strictifyVS c s f)
  | .anyS, _ => by simp [convVS, strictifyVS, Except.map]
  | .nullS, _ => by simp [convVS, strictifyVS, Except.map]
  | .literal l, _ => by
    simp only [convVS, strictifyVS]
    cases literalOut l <;> rfl
  | .number, _ => by simp [convVS, strictifyVS, Except.map]
  | .stringS, _ => by simp [convVS, strictifyVS, Except.map]
  | .boolean, _ => by simp [convVS, strictifyVS, Except.map]
  | .nanS, _ => by simp [convVS, strictifyVS, Except.map]
  | .nullable inner, h => by
    have hst : stableN c inner = true := by simpa [stableVS] using h
    have hi := strictEqN c inner hst
    simp only [convVS]
    rw [hi]
    cases hlo : convNode (looseC c) inner with
    | error e => simp [Except.map, Except.bind]
    | ok fi => simp [Except.map, Except.bind, strictifyVS, nullableStrictify]
  | .optionalS inner, h => by
    have hst : stableN c inner = true := by simpa [stableVS] using h
    have hi := strictEqN c inner hst
    simp only [convVS]
    rw [hi]
    cases hlo : convNode (looseC c) inner with
    | error e => simp [Except.map, Except.bind]
    | ok fi => simp [Except.map, Except.bind, strictifyVS]
  | .objectS entries m, h => by
    have hst : stableProps c entries = true := by simpa [stableVS] using h
    have hd := strictEqProps c entries hst
    simp only [convVS]
    rw [hd]
    cases hlo : convProps (looseC c) entries with
    | error e => simp [Except.map, Except.bind]
    | ok props =>
      simp only [Except.map, Except.bind, strictifyVS]
      have hflag : (strictC c).strictObjectTypes = true := rfl
      have hflag2 : (looseC c).strictObjectTypes = false := rfl
      rw [hflag, hflag2]
      cases hreq : (requiredKeys entries).isEmpty <;> cases m <;>
        simp [objectOut, objStrictify, hreq]
  | .record value, h => by
    have hst : stableN c value = true := by simpa [stableVS] using h
    have hi := strictEqN c value hst
    simp only [convVS]
    rw [hi]
    cases hlo : convNode (looseC c) value with
    | error e => simp [Except.map, Except.bind]
    | ok fi => simp [Except.map, Except.bind, strictifyVS, recordStrictify]
  | .arrayS item, h => by
    have hst : stableN c item = true := by simpa [stableVS] using h
    have hi := strictEqN c item hst
    simp only [convVS]
    rw [hi]
    cases hlo : convNode (looseC c) item with
    | error e => simp [Except.map, Except.bind]
    | ok fi => simp [Except.map, Except.bind, strictifyVS, arrayStrictify]
  | .tuple items none, h => by
    have hst : stableList c items = true := by simpa [stableVS] using h
    have hi := strictEqList c items hst
    simp only [convVS]
    rw [hi]
    cases hlo : convNodes (looseC c) items with
    | error e => simp [Except.map, Except.bind]
    | ok fs =>
      simp [Except.map, Except.bind, strictifyVS, tupleFixedStrictify,
        tupleFixedOut, strictifyList_length]
  | .tuple items (some r), h => by
    have hsplit : (stableList c items = true ∧ stableN c r = true) ∧
        tupleCheck (convNodes (looseC c) items) (convNode (looseC c) r)
          (convNodes (strictC c) items) (convNode (strictC c) r) = true := by
      simpa [stableVS] using h
    have hil := strictEqList c items hsplit.1.1
    have hir := strictEqN c r hsplit.1.2
    have hchk := hsplit.2
    rw [hil, hir] at hchk
    simp only [convVS]
    rw [hil, hir]
    cases hlo : convNodes (looseC c) items with
    | error e => simp [Except.map, Except.bind]
    | ok fs =>
      cases hro : convNode (looseC c) r with
      | error e => simp [Except.map, Except.bind]
      | ok rf =>
        rw [hlo, hro] at hchk
        simp only [Except.map, tupleCheck] at hchk
        have hcoll : jbeqList fs [rf] =
            jbeqList (strictifyList c items fs) [strictifyN c r rf] :=
          eq_of_beq hchk
        simp only [Except.map, Except.bind, strictifyVS, tupleRestOut]
        cases hb : jbeqList fs [rf] with
        | true =>
          rw [← hcoll.symm.trans rfl] at *
          simp only [← hcoll, hb]
          simp [tupleRestStrictify]
        | false =>
          simp only [← hcoll, hb]
          simp [tupleRestStrictify, strictifyList_length]
  | .picklist vs, _ => by simp [convVS, strictifyVS, Except.map]
  | .union members, h => by
    have hst : stableList c members = true := by simpa [stableVS] using h
    have hi := strictEqList c members hst
    simp only [convVS]
    rw [hi]
    cases hlo : convNodes (looseC c) members with
    | error e => simp [Except.map, Except.bind]
    | ok fs => simp [Except.map, Except.bind, strictifyVS, listKeyStrictify]
  | .intersect members, h => by
    have hst : stableList c members = true := by simpa [stableVS] using h
    have hi := strictEqList c members hst
    simp only [convVS]
    rw [hi]
    cases hlo : convNodes (looseC c) members with
    | error e => simp [Except.map, Except.bind]
    | ok fs => simp [Except.map, Except.bind, strictifyVS, listKeyStrictify]
  | .recursive t, _ => by
    simp only [convVS, lookupName_strictC, lookupName_looseC]
    cases hl : lookupName c t with
    | some name => simp [refOrElse, strictifyVS, Except.map]
    | none => simp [refOrElse, Except.map]
  | .date, _ => by
    simp [convVS, strictifyVS, Except.map, strictC, looseC]
  | .bigint, _ => by
    simp [convVS, strictifyVS, Except.map, strictC, looseC]
  | .undef, _ => by simp [convVS, strictifyVS, Except.map]
  | .withFeatures inner frag, h => by
    have hst : stableN c inner = true := by simpa [stableVS] using h
    have hi := strictEqN c inner hst
    simp only [convVS]
    rw [hi]
    cases hlo : convNode (looseC c) inner with
    | error e => simp [Except.map, Except.bind]
    | ok fi =>
      simp [Except.map, Except.bind, strictifyVS, wfStrictify, hlo, Except.toOption]

/-- List case of the strict-transformation equation. -/
theorem strictEqList (c : Ctx) : (l : List Node) → stableList c l = true →
    convNodes (strictC c) l = (convNodes (looseC c) l).map (fun fs => strictifyList c l fs)
  | [], _ => by simp [convNodes, strictifyList, Except.map]
  | n :: ns, h => by
    have hsplit : stableN c n = true ∧ stableList c ns = true := by
      simpa [stableList, Bool.and_eq_true] using h
    have hn := strictEqN c n hsplit.1
    have hns := strictEqList c ns hsplit.2
    simp only [convNodes]
    rw [hn, hns]
    cases hlo : convNode (looseC c) n with
    | error e => simp [Except.map, Except.bind]
    | ok f =>
      cases hlos : convNodes (looseC c) ns with
      | error e => simp [Except.map, Except.bind]
      | ok fs => simp [Except.map, Except.bind, strictifyList]

/-- Property-map case of the strict-transformation equation. -/
theorem strictEqProps (c : Ctx) : (l : List (String × Node)) → stableProps c l = true →
    convProps (strictC c) l = (convProps (looseC c) l).map (fun fs => strictifyProps c l fs)
  | [], _ => by simp [convProps, strictifyProps, Except.map]
  | (k, n) :: es, h => by
    have hsplit : stableN c n = true ∧ stableProps c es = true := by
      simpa [stableProps, Bool.and_eq_true] using h
    have hn := strictEqN c n hsplit.1
    have hes := strictEqProps c es hsplit.2
    simp only [convProps]
    rw [hn, hes]
    cases hlo : convNode (looseC c) n with
    | error e => simp [Except.map, Except.bind]
    | ok f =>
      cases hlos : convProps (looseC c) es with
      | error e => simp [Except.map, Except.bind]
      | ok fs => simp [Except.map, Except.bind, strictifyProps]

end

/-- Counterexample for C5: enabling strictObjectTypes changes more than
adding additionalProperties false to object fragments.  On cexTuple the
loose conversion keeps the items/additionalItems form while the strict
conversion collapses to the homogeneous form, because the two member
fragments become structurally equal once both carry additionalProperties
false.  Even after erasing every additionalProperties-false pair from
both outputs, the array fragments still differ: the loose one has an
additionalItems keyword and the strict one does not. -/
theorem C5_counterexample :
    convNode (strictC ctx0) cexTuple =
      .ok (.obj [("type", .str ("array")),
        ("items", .obj [("type", .str ("object")), ("properties", .obj []),
          ("additionalProperties", .bool false)]),
        ("minItems", .num 1)]) ∧
    convNode (looseC ctx0) cexTuple =
      .ok (.obj [("type", .str ("array")),
        ("items", .arr [.obj [("type", .str ("object")), ("properties", .obj [])]]),
        ("additionalItems", .obj [("type", .str ("object")), ("properties", .obj []),
          ("additionalProperties", .bool false)]),
        ("minItems", .num 1)]) ∧
    jGet ("additionalItems") (eraseAP (.obj [("type", .str ("array")),
      ("items", .obj [("type", .str ("object")), ("properties", .obj []),
        ("additionalProperties", .bool false)]),
      ("minItems", .num 1)])) = none ∧
    jGet ("additionalItems") (eraseAP (.obj [("type", .str ("array")),
      ("items", .arr [.obj [("type", .str ("object")), ("properties", .obj [])]]),
      ("additionalItems", .obj [("type", .str ("object")), ("properties", .obj []),
        ("additionalProperties", .bool false)]),
      ("minItems", .num 1)])) =
      some (.obj [("type", .str ("object")), ("properties", .obj [])]) ∧
    eraseAP (.obj [("type", .str ("array")),
      ("items", .obj [("type", .str ("object")), ("properties", .obj []),
        ("additionalProperties", .bool false)]),
      ("minItems", .num 1)]) ≠
    eraseAP (.obj [("type", .str ("array")),
      ("items", .arr [.obj [("type", .str ("object")), ("properties", .obj [])]]),
      ("additionalItems", .obj [("type", .str ("object")), ("properties", .obj []),
        ("additionalProperties", .bool false)]),
      ("minItems", .num 1)]) := by
  refine ⟨rfl, rfl, rfl, rfl, ?_⟩
  intro hEq
  have h2 := congrArg (fun v => jGet ("additionalItems") v) hEq
  simp only at h2
  rw [show jGet ("additionalItems") (eraseAP (.obj [("type", .str ("array")),
      ("items", .obj [("type", .str ("object")), ("properties", .obj []),
        ("additionalProperties", .bool false)]),
      ("minItems", .num 1)])) = none from rfl] at h2
  rw [show jGet ("additionalItems") (eraseAP (.obj [("type", .str ("array")),
      ("items", .arr [.obj [("type", .str ("object")), ("properties", .obj [])]]),
      ("additionalItems", .obj [("type", .str ("object")), ("properties", .obj []),
        ("additionalProperties", .bool false)]),
      ("minItems", .num 1)])) =
      some (.obj [("type", .str ("object")), ("properties", .obj [])]) from rfl] at h2
  exact Option.noConfusion h2

/-- C5 as amended: for every node all of whose reachable tuple-with-rest
nodes make the same collapse decision in strict and loose mode, enabling
strictObjectTypes transforms the conversion exactly by the strict
transformation strictifyN, which adds additionalProperties false to every
object fragment, leaves the properties keys and the required keyword of
every object fragment unchanged, and leaves every other keyword of every
fragment unchanged; the collapse-stability hypothesis cannot be dropped,
as the counterexample shows.  Errors are unaffected in either direction. -/
theorem C5_strict_object_types (c : Ctx) (n : Node) (h : stableN c n = true) :
    convNode (strictC c) n = (convNode (looseC c) n).map (fun f => strictifyN c n f) :=
  strictEqN c n h

/-- Witness for C5 at the strict-object test schema: the object with one
plain and one optional string property. -/
theorem C5_strict_object_types_witness :
    convNode (strictC ctx0) (0, .objectS [("string", (1, .stringS)),
      ("optionalString", (2, .optionalS (3, .stringS)))] false) =
    (convNode (looseC ctx0) (0, .objectS [("string", (1, .stringS)),
      ("optionalString", (2, .optionalS (3, .stringS)))] false)).map
      (fun f => strictifyN ctx0 (0, .objectS [("string", (1, .stringS)),
        ("optionalString", (2, .optionalS (3, .stringS)))] false) f) :=
  C5_strict_object_types ctx0 (0, .objectS [("string", (1, .stringS)),
    ("optionalString", (2, .optionalS (3, .stringS)))] false) (by decide)

/-- Counterexample for C7: four supported kinds have no representative
that agrees with its generated schema on all sample values.  For record,
the designated representative (a record of numbers) is accepted by the
source validator on the empty array (an array is a JavaScript object
whose entries play the role of record values, pinned by the record test
that expects the testCase to throw on the JSON side) while the generated
fragment, whose type keyword is object, rejects every array.  For date
and bigint, under either strategy, and for undefined, the encoding is
lossy: the generated fragment accepts a JSON encoding (a string, a
number, or anything at all) that the source validator, which accepts only
Date, BigInt or undefined values, rejects. -/
theorem C7_counterexample :
    (agreesOnSamples (.record (1, .number)) = false ∧
     valibotAccepts 100 [] (.record (1, .number)) (.arr []) = true ∧
     jsonAccepts 100 [] (fragOf (.record (1, .number))) (.arr []) = false) ∧
    (valibotAccepts 100 [] .date (.str ("foo")) = false ∧
     jsonAccepts 100 [] (dateOut .string) (.str ("foo")) = true ∧
     valibotAccepts 100 [] .date (.num 0) = false ∧
     jsonAccepts 100 [] (dateOut .integer) (.num 0) = true) ∧
    (valibotAccepts 100 [] .bigint (.str ("foo")) = false ∧
     jsonAccepts 100 [] (bigintOut .string) (.str ("foo")) = true ∧
     valibotAccepts 100 [] .bigint (.num 0) = false ∧
     jsonAccepts 100 [] (bigintOut .integer) (.num 0) = true) ∧
    (valibotAccepts 100 [] .undef (.num 0) = false ∧
     jsonAccepts 100 [] (fragOf .undef) (.num 0) = true) := by
  exact ⟨⟨by decide, by decide, by decide⟩, ⟨by decide, by decide, by decide, by decide⟩,
    ⟨by decide, by decide, by decide, by decide⟩, by decide, by decide⟩

/-- C7 as amended: agreement holds for every supported kind except the
four the counterexample refutes.  Each self-contained kind has a
representative agreeing on every sample value (optional is exercised
inside the object representative, as in the suite); the recursive kind's
representative, the registered list/listItem pair, agrees on every sample
value and on the valid list documents of the recursive-type test once the
generated reference is resolved through the generated definitions, which
are exactly what the converter produces for the pair.  For the record
kind, every representative whose value schema converts disagrees on the
empty array: the source validator accepts it and the generated fragment
rejects it. -/
theorem C7_kind_agreement :
    (agreesOnSamples .anyS = true ∧
     agreesOnSamples .nullS = true ∧
     agreesOnSamples (.literal (.str ("bar"))) = true ∧
     agreesOnSamples .number = true ∧
     agreesOnSamples .stringS = true ∧
     agreesOnSamples .boolean = true ∧
     agreesOnSamples (.nullable (1, .number)) = true ∧
     agreesOnSamples (.objectS [("string", (1, .stringS)),
       ("optionalString", (2, .optionalS (3, .stringS)))] false) = true ∧
     agreesOnSamples (.arrayS (1, .number)) = true ∧
     agreesOnSamples (.tuple [(1, .number), (2, .stringS)] none) = true ∧
     agreesOnSamples (.picklist [("foo"), ("bar")]) = true ∧
     agreesOnSamples (.union [(1, .stringS), (2, .number)]) = true ∧
     agreesOnSamples (.intersect [(1, .picklist [("foo"), ("bar")]),
       (2, .picklist [("bar"), ("baz")])]) = true) ∧
    (recAgrees = true ∧
     convDefs
       (mkCtx
         { schema := some (0, listVS),
           definitions := [("list", (0, listVS)), ("listItem", (1, itemVS))] })
       [("list", (0, listVS)), ("listItem", (1, itemVS))] = .ok recDefs) ∧
    (∀ (T : Node) (f : JVal), convNode ctx0 T = .ok f →
      convVS ctx0 (.record T) = .ok (.obj [("type", .str ("object")),
        ("additionalProperties", f)]) ∧
      valibotAccepts 100 [] (.record T) (.arr []) = true ∧
      jsonAccepts 100 [] (.obj [("type", .str ("object")),
        ("additionalProperties", f)]) (.arr []) = false) := by
  refine ⟨?_, ⟨by decide, rfl⟩, ?_⟩
  · exact ⟨by decide, by decide, by decide, by decide, by decide, by decide, by decide,
      by decide, by decide, by decide, by decide, by decide, by decide⟩
  · intro T f h
    refine ⟨?_, rfl, rfl⟩
    simp [convVS, h, Except.bind]

/-- Witness for C7 at the record-of-numbers representative. -/
theorem C7_kind_agreement_witness :
    convVS ctx0 (.record (1, .number)) = .ok (.obj [("type", .str ("object")),
      ("additionalProperties", .obj [("type", .str ("number"))])]) ∧
    valibotAccepts 100 [] (.record (1, .number)) (.arr []) = true ∧
    jsonAccepts 100 [] (.obj [("type", .str ("object")),
      ("additionalProperties", .obj [("type", .str ("number"))])]) (.arr []) = false :=
  C7_kind_agreement.2.2 (1, .number) (.obj [("type", .str ("number"))]) rfl

end VJS
